import Mathlib

/-!
# Rail scheduler: shallow embedding

Embedding of the core of the railway-simulation repository
(`models.py` and `scheduler.py`): the railway graph, the reservation
table, conflict detection, the GREEDY and CSP slot-search loops,
full-route scheduling and reservation cleanup.  Times are modelled as
`Int` (Python ints/floats that stay integer-valued on integer inputs);
track weights as `Nat` (`add_track` stores `max(1, int(dist/5.0))`,
always a non-negative integer).
-/

namespace RailSim

abbrev Color := Int × Int × Int

abbrev EdgeKey := String × String

/-- A reservation `(start, end, train_id)` as stored in the
reservation table (`scheduler.py`). -/
abbrev Reservation := Int × Int × Int

/-- `ScheduleEvent` from `models.py`: one traversal of one edge by one
train. -/
structure ScheduleEvent where
  train_id : Int
  source : String
  target : String
  start_time : Int
  end_time : Int
  color : Color
deriving DecidableEq, Repr

/-! ## Railway graph (`models.py`, class `RailwayGraph`)

The graph wraps networkx.  We keep the station-position cache and the
undirected weighted edge list; `nx.shortest_path` is an external
library call, modelled by the field `path_fn` (each concrete graph
instance supplies the paths networkx would return: minimum-weight
paths, `[]` when an endpoint is unknown or no path exists, mirroring
the `except: return []` in `get_path`). -/

structure RailwayGraph where
  cached_pos : List (String × Int × Int)
  edges : List (EdgeKey × Nat)
  path_fn : String → String → List String

def hasStation (g : RailwayGraph) (name : String) : Bool :=
  g.cached_pos.any (fun p => p.1 == name)

/-- `cached_pos` lookup; `get_pos` in `models.py` defaults to `(0, 0)`. -/
def get_pos (g : RailwayGraph) (name : String) : Int × Int :=
  match g.cached_pos.find? (fun p => p.1 == name) with
  | some p => (p.2.1, p.2.2)
  | none => (0, 0)

/-- `add_station`: registers a station, overwriting the cached position
if the name is already present. -/
def add_station (g : RailwayGraph) (name : String) (x y : Int) : RailwayGraph :=
  { g with cached_pos :=
      if g.cached_pos.any (fun p => p.1 == name) then
        g.cached_pos.map (fun p => if p.1 == name then (name, x, y) else p)
      else g.cached_pos ++ [(name, x, y)] }

/-- Weight computed by `add_track`: `max(1, int(math.hypot(dx, dy) / 5.0))`.
On integer coordinates `int(hypot(dx, dy)/5.0) = Nat.sqrt (dx^2 + dy^2) / 5`
(floor of the real square root, then floor division by 5). -/
def trackWeight (x1 y1 x2 y2 : Int) : Nat :=
  max 1 (Nat.sqrt ((x2 - x1) ^ 2 + (y2 - y1) ^ 2).toNat / 5)

/-- Insert or overwrite an undirected edge (networkx `add_edge`). -/
def insertEdge : List (EdgeKey × Nat) → String → String → Nat → List (EdgeKey × Nat)
  | [], u, v, w => [((u, v), w)]
  | (e, w0) :: t, u, v, w =>
    if (e.1 = u ∧ e.2 = v) ∨ (e.1 = v ∧ e.2 = u) then (e, w) :: t
    else (e, w0) :: insertEdge t u v w

/-- `add_track`: a no-op unless both stations are registered; otherwise
stores the undirected edge with the distance-derived weight. -/
def add_track (g : RailwayGraph) (u v : String) : RailwayGraph :=
  if hasStation g u && hasStation g v then
    let p1 := get_pos g u
    let p2 := get_pos g v
    { g with edges := insertEdge g.edges u v (trackWeight p1.1 p1.2 p2.1 p2.2) }
  else g

/-- Undirected weight lookup (`graph.edges[u, v]['weight']`); total with
default `0` for a missing edge (the source only queries edges that lie
on a path returned by the graph, where the edge exists). -/
def edgeWeight : List (EdgeKey × Nat) → String → String → Nat
  | [], _, _ => 0
  | (e, w) :: t, u, v =>
    if (e.1 = u ∧ e.2 = v) ∨ (e.1 = v ∧ e.2 = u) then w else edgeWeight t u v

def weight (g : RailwayGraph) (u v : String) : Nat :=
  edgeWeight g.edges u v

/-- `get_path`: shortest path via networkx, `[]` on unknown endpoint or
no path. -/
def get_path (g : RailwayGraph) (a b : String) : List String :=
  g.path_fn a b

/-! ## Scheduler state (`scheduler.py`, class `Scheduler`)

`self.reservations` is a Python dict mapping edge keys to
insertion-ordered reservation lists; modelled as an insertion-ordered
association list (dict keys are unique in every reachable state). -/

abbrev ResTable := List (EdgeKey × List Reservation)

structure Scheduler where
  graph_model : RailwayGraph
  reservations : ResTable

/-- `_get_edge_key`: canonical key for undirected edges. -/
def getEdgeKey (u v : String) : EdgeKey :=
  if u < v then (u, v) else (v, u)

/-- Reservation list stored under a key; `[]` when the key is absent. -/
def resListOf (l : ResTable) (k : EdgeKey) : List Reservation :=
  (l.lookup k).getD []

/-- The overlap test of `_check_conflict` for one stored reservation:
`start < (r_end + margin) and (end + margin) > r_start`. -/
def conflictPred (start end_ rStart rEnd margin : Int) : Bool :=
  decide (start < rEnd + margin) && decide (end_ + margin > rStart)

/-- The loop of `_check_conflict` over one edge key's reservation list. -/
def hasConflictList (rs : List Reservation) (start end_ margin : Int) : Bool :=
  rs.any (fun r => conflictPred start end_ r.1 r.2.1 margin)

/-- `_check_conflict(u, v, start, end, margin)`; the Python default for
`margin` is `15.0`, and both call sites in `schedule_route` use it. -/
def check_conflict (s : Scheduler) (u v : String) (start end_ margin : Int) : Bool :=
  hasConflictList (resListOf s.reservations (getEdgeKey u v)) start end_ margin

/-- Append a reservation to the list under `k`, creating the key at the
end of the table when absent (Python dict insertion order). -/
def insertRes : ResTable → EdgeKey → Reservation → ResTable
  | [], k, r => [(k, [r])]
  | (k0, rs) :: t, k, r =>
    if k0 = k then (k0, rs ++ [r]) :: t
    else (k0, rs) :: insertRes t k r

/-- `_reserve(u, v, start, end, train_id)`. -/
def reserveIn (l : ResTable) (u v : String) (start end_ tid : Int) : ResTable :=
  insertRes l (getEdgeKey u v) (start, end_, tid)

/-- `cleanup_old_reservations(current_time)`: per key keep the
reservations with `r[1] > current_time - 100`, then delete the keys
whose list became empty. -/
def cleanupTable (l : ResTable) (current_time : Int) : ResTable :=
  (l.map (fun p => (p.1, p.2.filter (fun r => decide (r.2.1 > current_time - 100))))).filter
    (fun p => !p.2.isEmpty)

def cleanup_old_reservations (s : Scheduler) (current_time : Int) : Scheduler :=
  { s with reservations := cleanupTable s.reservations current_time }

/-! ## The GREEDY and CSP slot-search loops of `schedule_route` -/

/-- Upper bound past which no stored reservation can conflict (with the
margin 15 used by `schedule_route`): the maximum of `r_end + 15` over
the list. -/
def maxEndBound (rs : List Reservation) : Int :=
  rs.foldr (fun r acc => max (r.2.1 + 15) acc) 0

theorem le_maxEndBound {rs : List Reservation} {r : Reservation} (h : r ∈ rs) :
    r.2.1 + 15 ≤ maxEndBound rs := by
  induction rs with
  | nil => cases h
  | cons a t ih =>
    rcases List.mem_cons.mp h with rfl | h
    · simp only [maxEndBound, List.foldr]
      omega
    · have := ih h
      simp only [maxEndBound, List.foldr] at this ⊢
      omega

theorem lt_maxEndBound_of_conflict {rs : List Reservation} {t e : Int}
    (h : hasConflictList rs t e 15 = true) : t < maxEndBound rs := by
  rcases List.any_eq_true.mp h with ⟨r, hr, hp⟩
  have h1 : t < r.2.1 + 15 := by
    have := (Bool.and_eq_true _ _).mp hp
    exact of_decide_eq_true this.1
  have h2 := le_maxEndBound hr
  omega

/-- The GREEDY retry loop: `while self._check_conflict(u, v, curr_t,
curr_t + weight): curr_t += 20; conflicts_avoided += 1`.  Returns the
first accepted cursor time together with the number of retries. -/
def greedyFind (rs : List Reservation) (w : Int) (t : Int) : Int × Nat :=
  if hasConflictList rs t (t + w) 15 then
    let p := greedyFind rs w (t + 20)
    (p.1, p.2 + 1)
  else (t, 0)
termination_by (maxEndBound rs - t).toNat
decreasing_by
  have := lt_maxEndBound_of_conflict (by assumption)
  omega

/-- The CSP probe loop: test `attempt_t`; on success return it; on
conflict advance by 10 and count it, aborting (`None`) once
`attempt_t - curr_t > 5000` after the advance.  Returns the slot (if
any) and the number of conflicting probes. -/
def cspFind (rs : List Reservation) (w curr_t : Int) (attempt_t : Int) : Option Int × Nat :=
  if hasConflictList rs attempt_t (attempt_t + w) 15 then
    if attempt_t + 10 - curr_t > 5000 then (none, 1)
    else
      let p := cspFind rs w curr_t (attempt_t + 10)
      (p.1, p.2 + 1)
  else (some attempt_t, 0)
termination_by (curr_t + 5001 - attempt_t).toNat
decreasing_by omega

/-! ## `schedule_route` -/

/-- The state threaded through one `schedule_route` call: the
reservation table, the accumulated events and conflict counter, and
the cursor time `curr_t`. -/
structure SchedState where
  resv : ResTable
  events : List ScheduleEvent
  conflicts : Nat
  curr_t : Int
deriving Repr

/-- One iteration of the inner `for j in range(len(path) - 1)` loop:
book the edge `(u, v)` in the requested mode.  An unrecognized mode
string matches neither branch and leaves the state unchanged. -/
def scheduleEdge (g : RailwayGraph) (mode : String) (tid : Int) (color : Color)
    (st : SchedState) (uv : String × String) : SchedState :=
  let u := uv.1
  let v := uv.2
  let w : Int := (weight g u v : Int)
  let rs := resListOf st.resv (getEdgeKey u v)
  if mode = "GREEDY" then
    let p := greedyFind rs w st.curr_t
    { resv := reserveIn st.resv u v p.1 (p.1 + w) tid
      events := st.events ++ [⟨tid, u, v, p.1, p.1 + w, color⟩]
      conflicts := st.conflicts + p.2
      curr_t := p.1 + w }
  else if mode = "CSP" then
    match cspFind rs w st.curr_t st.curr_t with
    | (some a, n) =>
      { resv := reserveIn st.resv u v a (a + w) tid
        events := st.events ++ [⟨tid, u, v, a, a + w, color⟩]
        conflicts := st.conflicts + n
        curr_t := a + w }
    | (none, n) => { st with conflicts := st.conflicts + n }
  else st

/-- Consecutive pairs of a list (`range(len(l) - 1)` over indexed
pairs). -/
def pairs (l : List String) : List (String × String) :=
  l.zip l.tail

/-- One iteration of the outer `for i in range(len(stops) - 1)` loop:
resolve the physical path for one leg; `continue` (state unchanged,
dwell included) when the path is empty or shorter than 2; otherwise
book every edge and add the 5-tick station dwell. -/
def scheduleLeg (g : RailwayGraph) (mode : String) (tid : Int) (color : Color)
    (st : SchedState) (ab : String × String) : SchedState :=
  let path := get_path g ab.1 ab.2
  if path.length < 2 then st
  else
    let st1 := (pairs path).foldl (scheduleEdge g mode tid color) st
    { st1 with curr_t := st1.curr_t + 5 }

/-- `schedule_route(train_id, stops, color, start_time, mode)`.  Returns
the emitted events, the conflicts-avoided counter and the scheduler
with its updated reservation table (the wall-clock `dt` of the source
is a measurement, not modelled). -/
def schedule_route (s : Scheduler) (tid : Int) (stops : List String) (color : Color)
    (start_time : Int) (mode : String) : List ScheduleEvent × Nat × Scheduler :=
  let st := (pairs stops).foldl (scheduleLeg s.graph_model mode tid color)
    ⟨s.reservations, [], 0, start_time⟩
  (st.events, st.conflicts, { s with reservations := st.resv })

/-! ## The concrete two-station graph of the spec scenario -/

/-- Shortest paths of the one-track graph `A(0,0) — B(300,0)`: networkx
returns the only elementary path between the two registered stations
and raises (caught, yielding `[]`) for any other query. -/
def pathABfun (a b : String) : List String :=
  if a = "A" && b = "B" then ["A", "B"]
  else if a = "B" && b = "A" then ["B", "A"]
  else []

def graphAB : RailwayGraph :=
  add_track (add_station (add_station ⟨[], [], pathABfun⟩ "A" 0 0) "B" 300 0) "A" "B"

/-- A scheduler freshly constructed on `graphAB`. -/
def emptySchedAB : Scheduler :=
  { graph_model := graphAB, reservations := [] }

/-- A fresh scheduler on an arbitrary graph. -/
def freshScheduler (g : RailwayGraph) : Scheduler :=
  { graph_model := g, reservations := [] }

/-! ## Evaluation lemmas for the concrete graph -/

theorem sqrtAB : Nat.sqrt (((((300 : Int) - 0) ^ 2 + ((0 : Int) - 0) ^ 2)).toNat) = 300 := by
  have h : (((300 : Int) - 0) ^ 2 + ((0 : Int) - 0) ^ 2).toNat = 90000 := by simp
  rw [h]
  exact (Nat.eq_sqrt.mpr (by norm_num)).symm

theorem trackWeight_AB : trackWeight 0 0 300 0 = 60 := by
  unfold trackWeight
  rw [sqrtAB]
  decide

/-- The two stations before the track is added. -/
def stationsAB : RailwayGraph :=
  add_station (add_station ⟨[], [], pathABfun⟩ "A" 0 0) "B" 300 0

theorem stationsAB_pos : stationsAB.cached_pos = [("A", 0, 0), ("B", 300, 0)] := by
  simp [stationsAB, add_station]

theorem stationsAB_edges : stationsAB.edges = [] := by
  simp [stationsAB, add_station]

theorem get_pos_A : get_pos stationsAB "A" = (0, 0) := by
  simp [get_pos, stationsAB_pos, List.find?]

theorem get_pos_B : get_pos stationsAB "B" = (300, 0) := by
  simp [get_pos, stationsAB_pos, List.find?]

theorem hasStation_A : hasStation stationsAB "A" = true := by
  simp [hasStation, stationsAB_pos]

theorem hasStation_B : hasStation stationsAB "B" = true := by
  simp [hasStation, stationsAB_pos]

theorem graphAB_edges : graphAB.edges = [(("A", "B"), 60)] := by
  show (add_track stationsAB "A" "B").edges = [(("A", "B"), 60)]
  unfold add_track
  rw [hasStation_A, hasStation_B]
  simp only [Bool.and_self, if_true]
  rw [get_pos_A, get_pos_B]
  simp [insertEdge, trackWeight_AB, stationsAB_edges]

theorem graphAB_weight_AB : weight graphAB "A" "B" = 60 := by
  unfold weight
  rw [graphAB_edges]
  simp [edgeWeight]

theorem graphAB_path_fn : graphAB.path_fn = pathABfun := by
  show (add_track stationsAB "A" "B").path_fn = pathABfun
  unfold add_track
  split
  · rfl
  · rfl

theorem pathAB_AB : get_path graphAB "A" "B" = ["A", "B"] := by
  simp [get_path, graphAB_path_fn, pathABfun]

theorem pathAB_AC : get_path graphAB "A" "C" = [] := by
  simp [get_path, graphAB_path_fn, pathABfun]

theorem strlt_AB : ("A" : String) < "B" := by
  simp
  decide

theorem edgeKey_AB : getEdgeKey "A" "B" = ("A", "B") := by
  unfold getEdgeKey
  rw [if_pos strlt_AB]

/-! ## General unfolding lemmas for the scheduling steps -/

theorem scheduleEdge_greedy (g : RailwayGraph) (tid : Int) (color : Color)
    (st : SchedState) (u v : String) :
    scheduleEdge g "GREEDY" tid color st (u, v) =
      { resv := reserveIn st.resv u v
          (greedyFind (resListOf st.resv (getEdgeKey u v)) (weight g u v) st.curr_t).1
          ((greedyFind (resListOf st.resv (getEdgeKey u v)) (weight g u v) st.curr_t).1 +
            (weight g u v)) tid
        events := st.events ++ [⟨tid, u, v,
          (greedyFind (resListOf st.resv (getEdgeKey u v)) (weight g u v) st.curr_t).1,
          (greedyFind (resListOf st.resv (getEdgeKey u v)) (weight g u v) st.curr_t).1 +
            (weight g u v), color⟩]
        conflicts := st.conflicts +
          (greedyFind (resListOf st.resv (getEdgeKey u v)) (weight g u v) st.curr_t).2
        curr_t := (greedyFind (resListOf st.resv (getEdgeKey u v)) (weight g u v) st.curr_t).1 +
          (weight g u v) } := by
  unfold scheduleEdge
  simp

theorem scheduleEdge_csp_some (g : RailwayGraph) (tid : Int) (color : Color)
    (st : SchedState) (u v : String) (a : Int) (n : Nat)
    (h : cspFind (resListOf st.resv (getEdgeKey u v)) (weight g u v) st.curr_t st.curr_t =
      (some a, n)) :
    scheduleEdge g "CSP" tid color st (u, v) =
      { resv := reserveIn st.resv u v a (a + (weight g u v)) tid
        events := st.events ++ [⟨tid, u, v, a, a + (weight g u v), color⟩]
        conflicts := st.conflicts + n
        curr_t := a + (weight g u v) } := by
  unfold scheduleEdge
  simp [h]

theorem scheduleEdge_csp_none (g : RailwayGraph) (tid : Int) (color : Color)
    (st : SchedState) (u v : String) (n : Nat)
    (h : cspFind (resListOf st.resv (getEdgeKey u v)) (weight g u v) st.curr_t st.curr_t =
      (none, n)) :
    scheduleEdge g "CSP" tid color st (u, v) = { st with conflicts := st.conflicts + n } := by
  unfold scheduleEdge
  simp [h]

theorem scheduleLeg_skip (g : RailwayGraph) (mode : String) (tid : Int) (color : Color)
    (st : SchedState) (a b : String) (h : (get_path g a b).length < 2) :
    scheduleLeg g mode tid color st (a, b) = st := by
  unfold scheduleLeg
  rw [if_pos h]

theorem scheduleLeg_run (g : RailwayGraph) (mode : String) (tid : Int) (color : Color)
    (st : SchedState) (a b : String) (h : ¬ (get_path g a b).length < 2) :
    scheduleLeg g mode tid color st (a, b) =
      (let st1 := (pairs (get_path g a b)).foldl (scheduleEdge g mode tid color) st
       { st1 with curr_t := st1.curr_t + 5 }) := by
  unfold scheduleLeg
  rw [if_neg h]

/-! ## C2: the conflict predicate -/

/-- C2: `_check_conflict(u, v, start, end, margin)` is true iff some
reservation `(r_start, r_end)` stored under `edge_key(u, v)` satisfies
`start < r_end + margin` and `end + margin > r_start` (in particular it
is false when the edge key holds no reservations), and the pairwise
predicate is symmetric under swapping the queried and the stored
interval. -/
theorem C2_conflict_predicate :
    (∀ (s : Scheduler) (u v : String) (start end_ m : Int),
      check_conflict s u v start end_ m = true ↔
        ∃ r ∈ resListOf s.reservations (getEdgeKey u v),
          start < r.2.1 + m ∧ end_ + m > r.1) ∧
    (∀ (s : Scheduler) (u v : String) (start end_ m : Int),
      s.reservations.lookup (getEdgeKey u v) = none →
        check_conflict s u v start end_ m = false) ∧
    (∀ s1 e1 s2 e2 m : Int, conflictPred s1 e1 s2 e2 m = conflictPred s2 e2 s1 e1 m) := by
  refine ⟨?_, ?_, ?_⟩
  · intro s u v start end_ m
    simp [check_conflict, hasConflictList, conflictPred, List.any_eq_true]
  · intro s u v start end_ m h
    simp [check_conflict, resListOf, h, hasConflictList]
  · intro s1 e1 s2 e2 m
    simp only [conflictPred]
    exact Bool.and_comm _ _

theorem C2_conflict_predicate_witness :
    (check_conflict emptySchedAB "A" "B" 0 60 15 = true ↔
      ∃ r ∈ resListOf emptySchedAB.reservations (getEdgeKey "A" "B"),
        (0 : Int) < r.2.1 + 15 ∧ (60 : Int) + 15 > r.1) ∧
    check_conflict emptySchedAB "A" "B" 0 60 15 = false :=
  ⟨C2_conflict_predicate.1 emptySchedAB "A" "B" 0 60 15,
    C2_conflict_predicate.2.1 emptySchedAB "A" "B" 0 60 15 rfl⟩

/-! ## C6 and C7: cleanup -/

/-- Modelled from the claim's words for comparison: a cleanup with
grace window 0 would drop exactly the reservations whose end is not
greater than `current_time`. -/
def cleanupClaimGrace0 (l : ResTable) (current_time : Int) : ResTable :=
  (l.map (fun p => (p.1, p.2.filter (fun r => decide (r.2.1 > current_time))))).filter
    (fun p => !p.2.isEmpty)

/-- C6 counterexample: a reservation ending at 50 is not greater than
`current_time = 100`, so the claim says it is removed, but the code
keeps it (its end exceeds `current_time - 100 = 0`), while a grace-0
cleanup would empty the table. -/
theorem C6_counterexample :
    (cleanup_old_reservations
        { graph_model := graphAB, reservations := [(("A", "B"), [(0, 50, 1)])] }
        100).reservations = [(("A", "B"), [(0, 50, 1)])] ∧
    cleanupClaimGrace0 [(("A", "B"), [(0, 50, 1)])] 100 = [] ∧
    ¬ ((50 : Int) > 100) := by
  refine ⟨?_, ?_, by norm_num⟩
  · simp [cleanup_old_reservations, cleanupTable]
  · simp [cleanupClaimGrace0]

/-- C6 amended: `cleanup_old_reservations(t)` keeps, per edge key,
exactly the reservations whose end is greater than `t - 100` (a grace
window of 100, not 0), and afterwards no edge key maps to an empty
list. -/
theorem C6_cleanup_amended :
    ∀ (s : Scheduler) (t : Int),
      ((cleanup_old_reservations s t).reservations.all (fun p => !p.2.isEmpty) = true) ∧
      (∀ (k : EdgeKey) (rs : List Reservation),
        (k, rs) ∈ (cleanup_old_reservations s t).reservations ↔
          ∃ rs0, (k, rs0) ∈ s.reservations ∧
            rs = rs0.filter (fun r => decide (r.2.1 > t - 100)) ∧ rs ≠ []) := by
  intro s t
  constructor
  · simp only [cleanup_old_reservations, cleanupTable, List.all_eq_true]
    intro p hp
    exact (List.mem_filter.mp hp).2
  · intro k rs
    simp only [cleanup_old_reservations, cleanupTable, List.mem_filter, List.mem_map]
    constructor
    · rintro ⟨⟨p, hp, heq⟩, hne⟩
      injection heq with hk hfil
      refine ⟨p.2, ?_, hfil.symm, ?_⟩
      · rw [← hk]
        exact hp
      · intro hrs
        rw [hrs] at hne
        simp at hne
    · rintro ⟨rs0, hmem, hrs, hne⟩
      refine ⟨⟨(k, rs0), hmem, by simp [hrs]⟩, ?_⟩
      simpa [List.isEmpty_iff] using hne

theorem C6_cleanup_amended_witness :
    ((cleanup_old_reservations
        { graph_model := graphAB, reservations := [(("A", "B"), [(0, 50, 1)])] }
        100).reservations.all (fun p => !p.2.isEmpty) = true) ∧
    ((("A", "B"), [((0 : Int), (50 : Int), (1 : Int))]) ∈
        (cleanup_old_reservations
          { graph_model := graphAB, reservations := [(("A", "B"), [(0, 50, 1)])] }
          100).reservations ↔
      ∃ rs0, (("A", "B"), rs0) ∈
          [((("A", "B") : EdgeKey), [((0 : Int), (50 : Int), (1 : Int))])] ∧
        [((0 : Int), (50 : Int), (1 : Int))] =
          rs0.filter (fun r => decide (r.2.1 > (100 : Int) - 100)) ∧
        [((0 : Int), (50 : Int), (1 : Int))] ≠ []) :=
  ⟨(C6_cleanup_amended
      { graph_model := graphAB, reservations := [(("A", "B"), [(0, 50, 1)])] } 100).1,
    (C6_cleanup_amended
      { graph_model := graphAB, reservations := [(("A", "B"), [(0, 50, 1)])] } 100).2
      ("A", "B") [(0, 50, 1)]⟩

theorem filter_self_filter (P : Reservation → Bool) (rs : List Reservation) :
    (rs.filter P).filter P = rs.filter P := by
  rw [List.filter_filter]
  simp

theorem cleanupTable_cons (k : EdgeKey) (rs : List Reservation) (l : ResTable) (t : Int) :
    cleanupTable ((k, rs) :: l) t =
      if (rs.filter (fun r => decide (r.2.1 > t - 100))).isEmpty then cleanupTable l t
      else (k, rs.filter (fun r => decide (r.2.1 > t - 100))) :: cleanupTable l t := by
  by_cases h : (rs.filter (fun r => decide (r.2.1 > t - 100))).isEmpty
  · rw [if_pos h]
    simp only [cleanupTable, List.map_cons, List.filter_cons]
    rw [if_neg]
    simp [h]
  · rw [if_neg h]
    simp only [cleanupTable, List.map_cons, List.filter_cons]
    rw [if_pos]
    simp only [Bool.not_eq_true] at h
    simp [h]

theorem cleanupTable_idem (l : ResTable) (t : Int) :
    cleanupTable (cleanupTable l t) t = cleanupTable l t := by
  induction l with
  | nil => rfl
  | cons p tl ih =>
    obtain ⟨k, rs⟩ := p
    rw [cleanupTable_cons]
    by_cases h : (rs.filter (fun r => decide (r.2.1 > t - 100))).isEmpty
    · rw [if_pos h, ih]
    · rw [if_neg h, cleanupTable_cons, filter_self_filter, if_neg h, ih]

/-- C7: cleanup at a fixed time is idempotent: applying
`cleanup_old_reservations(t)` twice yields the same scheduler state as
applying it once. -/
theorem C7_cleanup_idempotent :
    ∀ (s : Scheduler) (t : Int),
      cleanup_old_reservations (cleanup_old_reservations s t) t =
        cleanup_old_reservations s t := by
  intro s t
  simp only [cleanup_old_reservations, cleanupTable_idem]

/-! ## C8: invalid legs are skipped -/

/-- C8: when the topology's path for a leg is empty or shorter than 2,
that leg leaves the whole scheduling state unchanged (no events, no
reservations, no failure), and in a route containing such a leg the
remaining legs produce exactly what they would produce without it. -/
theorem C8_invalid_leg_skipped :
    ∀ (g : RailwayGraph) (mode : String) (tid : Int) (color : Color)
      (a b : String), (get_path g a b).length < 2 →
      (∀ st : SchedState, scheduleLeg g mode tid color st (a, b) = st) ∧
      (∀ (legs1 legs2 : List (String × String)) (st : SchedState),
        (legs1 ++ (a, b) :: legs2).foldl (scheduleLeg g mode tid color) st =
          (legs1 ++ legs2).foldl (scheduleLeg g mode tid color) st) := by
  intro g mode tid color a b h
  have hskip : ∀ st : SchedState, scheduleLeg g mode tid color st (a, b) = st :=
    fun st => scheduleLeg_skip g mode tid color st a b h
  refine ⟨hskip, ?_⟩
  intro legs1 legs2 st
  rw [List.foldl_append, List.foldl_append, List.foldl_cons, hskip]

/-! ## Unfolding and correctness lemmas for the two search loops -/

theorem greedyFind_neg {rs : List Reservation} {w t : Int}
    (h : hasConflictList rs t (t + w) 15 = false) : greedyFind rs w t = (t, 0) := by
  rw [greedyFind, h]
  simp

theorem greedyFind_pos {rs : List Reservation} {w t : Int}
    (h : hasConflictList rs t (t + w) 15 = true) :
    greedyFind rs w t = ((greedyFind rs w (t + 20)).1, (greedyFind rs w (t + 20)).2 + 1) := by
  rw [greedyFind, h]
  simp

/-- The accepted slot of the GREEDY loop is conflict-free (margin 15). -/
theorem greedyFind_free (rs : List Reservation) (w t : Int) :
    hasConflictList rs (greedyFind rs w t).1 ((greedyFind rs w t).1 + w) 15 = false := by
  refine greedyFind.induct rs w
    (fun s => hasConflictList rs (greedyFind rs w s).1 ((greedyFind rs w s).1 + w) 15 = false)
    ?_ ?_ t
  · intro x h ih
    rw [greedyFind_pos h]
    exact ih
  · intro x h
    have hf : hasConflictList rs x (x + w) 15 = false := by simpa using h
    rw [greedyFind_neg hf]
    exact hf

/-- The GREEDY loop advances in steps of exactly 20, one per counted
retry. -/
theorem greedyFind_arith (rs : List Reservation) (w t : Int) :
    (greedyFind rs w t).1 = t + 20 * ((greedyFind rs w t).2 : Int) := by
  refine greedyFind.induct rs w
    (fun s => (greedyFind rs w s).1 = s + 20 * ((greedyFind rs w s).2 : Int)) ?_ ?_ t
  · intro x h ih
    rw [greedyFind_pos h]
    push_cast
    push_cast at ih
    omega
  · intro x h
    have hf : hasConflictList rs x (x + w) 15 = false := by simpa using h
    rw [greedyFind_neg hf]
    simp

theorem greedyFind_ge (rs : List Reservation) (w t : Int) :
    t ≤ (greedyFind rs w t).1 := by
  have h := greedyFind_arith rs w t
  omega

theorem cspFind_succ {rs : List Reservation} {w c a : Int}
    (h : hasConflictList rs a (a + w) 15 = false) : cspFind rs w c a = (some a, 0) := by
  rw [cspFind, h]
  simp

theorem cspFind_abort {rs : List Reservation} {w c a : Int}
    (h1 : hasConflictList rs a (a + w) 15 = true) (h2 : a + 10 - c > 5000) :
    cspFind rs w c a = (none, 1) := by
  rw [cspFind, h1]
  simp [h2]

theorem cspFind_step {rs : List Reservation} {w c a : Int}
    (h1 : hasConflictList rs a (a + w) 15 = true) (h2 : ¬ a + 10 - c > 5000) :
    cspFind rs w c a = ((cspFind rs w c (a + 10)).1, (cspFind rs w c (a + 10)).2 + 1) := by
  rw [cspFind, h1]
  simp [h2]

/-- A successful CSP probe lands on a conflict-free slot reached from
the initial attempt by exactly `n` steps of 10. -/
theorem cspFind_some_spec (rs : List Reservation) (w c : Int) :
    ∀ (a x : Int) (n : Nat), cspFind rs w c a = (some x, n) →
      hasConflictList rs x (x + w) 15 = false ∧ x = a + 10 * (n : Int) := by
  refine cspFind.induct rs w c
    (fun a => ∀ (x : Int) (n : Nat), cspFind rs w c a = (some x, n) →
      hasConflictList rs x (x + w) 15 = false ∧ x = a + 10 * (n : Int)) ?_ ?_ ?_
  · intro y h1 h2 x n hx
    rw [cspFind_abort h1 h2] at hx
    cases hx
  · intro y h1 h2 ih x n hx
    rw [cspFind_step h1 h2] at hx
    injection hx with hx1 hx2
    have hrec : cspFind rs w c (y + 10) = (some x, (cspFind rs w c (y + 10)).2) := by
      rw [← hx1]
    obtain ⟨hfree, harith⟩ := ih x (cspFind rs w c (y + 10)).2 hrec
    refine ⟨hfree, ?_⟩
    rw [harith, ← hx2]
    push_cast
    ring
  · intro y h x n hx
    have hf : hasConflictList rs y (y + w) 15 = false := by simpa using h
    rw [cspFind_succ hf] at hx
    injection hx with hx1 hx2
    injection hx1 with hx1
    subst hx1
    subst hx2
    simpa using hf

/-- No reservation can conflict with a query interval starting at or
past `maxEndBound` (margin 15). -/
theorem no_conflict_past_bound (rs : List Reservation) (w : Int) :
    ∀ t2 : Int, maxEndBound rs ≤ t2 → hasConflictList rs t2 (t2 + w) 15 = false := by
  intro t2 h
  by_cases hc : hasConflictList rs t2 (t2 + w) 15
  · have := lt_maxEndBound_of_conflict hc
    omega
  · simpa using hc

/-! ## C10: termination of the GREEDY retry loop -/

/-- C10: every GREEDY retry loop terminates: past the finite bound
`maxEndBound` (the maximum `r_end + margin` over the edge's
reservations) the conflict check is false, each retry advances the
cursor by exactly 20 (so the returned slot is `t + 20·retries`,
reached after finitely many iterations), and the loop exits with a
conflict-free slot. -/
theorem C10_greedy_terminates :
    ∀ (rs : List Reservation) (w t : Int),
      (∀ t2 : Int, maxEndBound rs ≤ t2 → hasConflictList rs t2 (t2 + w) 15 = false) ∧
      ((greedyFind rs w t).1 = t + 20 * ((greedyFind rs w t).2 : Int)) ∧
      (hasConflictList rs (greedyFind rs w t).1 ((greedyFind rs w t).1 + w) 15 = false) :=
  fun rs w t => ⟨no_conflict_past_bound rs w, greedyFind_arith rs w t, greedyFind_free rs w t⟩

theorem C10_greedy_terminates_witness :
    (hasConflictList [((0 : Int), (60 : Int), (1 : Int))] 100 (100 + 60) 15 = false) ∧
    ((greedyFind [((0 : Int), (60 : Int), (1 : Int))] 60 0).1 =
      0 + 20 * (((greedyFind [((0 : Int), (60 : Int), (1 : Int))] 60 0).2 : Nat) : Int)) ∧
    (hasConflictList [((0 : Int), (60 : Int), (1 : Int))]
      (greedyFind [((0 : Int), (60 : Int), (1 : Int))] 60 0).1
      ((greedyFind [((0 : Int), (60 : Int), (1 : Int))] 60 0).1 + 60) 15 = false) :=
  ⟨(C10_greedy_terminates [(0, 60, 1)] 60 0).1 100 (by norm_num [maxEndBound]),
    (C10_greedy_terminates [(0, 60, 1)] 60 0).2.1,
    (C10_greedy_terminates [(0, 60, 1)] 60 0).2.2⟩

/-! ## C3 (amended): the GREEDY loop's margin is 15, not 20 -/

/-- C3 amended: every conflict check of `schedule_route`'s GREEDY
branch for an edge `(u, v)` from cursor `curr_t` is
`_check_conflict(u, v, curr_t, curr_t + weight)` with the default
margin 15 (not 20); while it reports a conflict the cursor advances by
exactly 20 ticks and `conflicts_avoided` is incremented once per
retry. -/
theorem C3_greedy_margin15 :
    (∀ (rs : List Reservation) (w t : Int),
      (hasConflictList rs t (t + w) 15 = true →
        greedyFind rs w t = ((greedyFind rs w (t + 20)).1, (greedyFind rs w (t + 20)).2 + 1)) ∧
      (hasConflictList rs t (t + w) 15 = false → greedyFind rs w t = (t, 0))) ∧
    (∀ (g : RailwayGraph) (tid : Int) (color : Color) (st : SchedState) (u v : String),
      scheduleEdge g "GREEDY" tid color st (u, v) =
        { resv := reserveIn st.resv u v
            (greedyFind (resListOf st.resv (getEdgeKey u v)) (weight g u v) st.curr_t).1
            ((greedyFind (resListOf st.resv (getEdgeKey u v)) (weight g u v) st.curr_t).1 +
              (weight g u v)) tid
          events := st.events ++ [⟨tid, u, v,
            (greedyFind (resListOf st.resv (getEdgeKey u v)) (weight g u v) st.curr_t).1,
            (greedyFind (resListOf st.resv (getEdgeKey u v)) (weight g u v) st.curr_t).1 +
              (weight g u v), color⟩]
          conflicts := st.conflicts +
            (greedyFind (resListOf st.resv (getEdgeKey u v)) (weight g u v) st.curr_t).2
          curr_t :=
            (greedyFind (resListOf st.resv (getEdgeKey u v)) (weight g u v) st.curr_t).1 +
              (weight g u v) }) := by
  constructor
  · intro rs w t
    exact ⟨fun h => greedyFind_pos h, fun h => greedyFind_neg h⟩
  · intro g tid color st u v
    exact scheduleEdge_greedy g tid color st u v

theorem C3_greedy_margin15_witness :
    greedyFind [((0 : Int), (60 : Int), (1 : Int))] 60 0 =
      ((greedyFind [((0 : Int), (60 : Int), (1 : Int))] 60 (0 + 20)).1,
        (greedyFind [((0 : Int), (60 : Int), (1 : Int))] 60 (0 + 20)).2 + 1) ∧
    greedyFind [((0 : Int), (60 : Int), (1 : Int))] 60 80 = (80, 0) :=
  ⟨((C3_greedy_margin15.1 [(0, 60, 1)] 60 0).1
      (by simp [hasConflictList, conflictPred])),
    ((C3_greedy_margin15.1 [(0, 60, 1)] 60 80).2
      (by simp [hasConflictList, conflictPred]))⟩

/-! ## Concrete runs on the two-station graph -/

theorem greedyEval0 : greedyFind [] 60 0 = (0, 0) := by
  simp [greedyFind, hasConflictList]

theorem greedyEval2 : greedyFind [((0 : Int), (60 : Int), (1 : Int))] 60 0 = (80, 4) := by
  simp [greedyFind, hasConflictList, conflictPred]

theorem greedyEval76 : greedyFind [((0 : Int), (60 : Int), (1 : Int))] 60 76 = (76, 0) := by
  simp [greedyFind, hasConflictList, conflictPred]

/-- The scheduler state after train 1 books `[0, 60]` on the track. -/
def schedS1 : Scheduler :=
  { graph_model := graphAB, reservations := [(("A", "B"), [(0, 60, 1)])] }

theorem foldEval1 :
    (pairs ["A", "B"]).foldl (scheduleEdge graphAB "GREEDY" 1 (0, 0, 0)) ⟨[], [], 0, 0⟩ =
      ⟨[(("A", "B"), [(0, 60, 1)])], [⟨1, "A", "B", 0, 60, (0, 0, 0)⟩], 0, 60⟩ := by
  rw [show pairs ["A", "B"] = [("A", "B")] from rfl, List.foldl_cons, List.foldl_nil]
  rw [scheduleEdge_greedy]
  rw [graphAB_weight_AB, edgeKey_AB]
  simp only [Nat.cast_ofNat]
  rw [show resListOf ([] : ResTable) ("A", "B") = [] from rfl]
  rw [greedyEval0]
  simp [reserveIn, insertRes, edgeKey_AB]

theorem legEval1 :
    scheduleLeg graphAB "GREEDY" 1 (0, 0, 0) ⟨[], [], 0, 0⟩ ("A", "B") =
      ⟨[(("A", "B"), [(0, 60, 1)])], [⟨1, "A", "B", 0, 60, (0, 0, 0)⟩], 0, 65⟩ := by
  rw [scheduleLeg_run graphAB "GREEDY" 1 (0, 0, 0) ⟨[], [], 0, 0⟩ "A" "B"
    (by rw [pathAB_AB]; decide)]
  rw [pathAB_AB]
  simp only [foldEval1]
  norm_num

theorem schedAB_run1 :
    schedule_route emptySchedAB 1 ["A", "B"] (0, 0, 0) 0 "GREEDY" =
      ([⟨1, "A", "B", 0, 60, (0, 0, 0)⟩], 0, schedS1) := by
  unfold schedule_route
  rw [show pairs ["A", "B"] = [("A", "B")] from rfl, List.foldl_cons, List.foldl_nil,
    show emptySchedAB.graph_model = graphAB from rfl,
    show emptySchedAB.reservations = [] from rfl]
  rw [legEval1]
  rfl

theorem foldEval2 :
    (pairs ["A", "B"]).foldl (scheduleEdge graphAB "GREEDY" 2 (0, 0, 0))
        ⟨[(("A", "B"), [(0, 60, 1)])], [], 0, 0⟩ =
      ⟨[(("A", "B"), [(0, 60, 1), (80, 140, 2)])],
        [⟨2, "A", "B", 80, 140, (0, 0, 0)⟩], 4, 140⟩ := by
  rw [show pairs ["A", "B"] = [("A", "B")] from rfl, List.foldl_cons, List.foldl_nil]
  rw [scheduleEdge_greedy]
  rw [graphAB_weight_AB, edgeKey_AB]
  simp only [Nat.cast_ofNat]
  rw [show resListOf [((("A", "B") : EdgeKey), [((0 : Int), (60 : Int), (1 : Int))])]
    ("A", "B") = [(0, 60, 1)] from by simp [resListOf]]
  rw [greedyEval2]
  simp [reserveIn, insertRes, edgeKey_AB]

theorem legEval2 :
    scheduleLeg graphAB "GREEDY" 2 (0, 0, 0)
        ⟨[(("A", "B"), [(0, 60, 1)])], [], 0, 0⟩ ("A", "B") =
      ⟨[(("A", "B"), [(0, 60, 1), (80, 140, 2)])],
        [⟨2, "A", "B", 80, 140, (0, 0, 0)⟩], 4, 145⟩ := by
  rw [scheduleLeg_run graphAB "GREEDY" 2 (0, 0, 0) ⟨[(("A", "B"), [(0, 60, 1)])], [], 0, 0⟩
    "A" "B" (by rw [pathAB_AB]; decide)]
  rw [pathAB_AB]
  simp only [foldEval2]
  norm_num

theorem schedAB_run2 :
    schedule_route schedS1 2 ["A", "B"] (0, 0, 0) 0 "GREEDY" =
      ([⟨2, "A", "B", 80, 140, (0, 0, 0)⟩], 4,
        { graph_model := graphAB,
          reservations := [(("A", "B"), [(0, 60, 1), (80, 140, 2)])] }) := by
  unfold schedule_route
  rw [show pairs ["A", "B"] = [("A", "B")] from rfl, List.foldl_cons, List.foldl_nil,
    show schedS1.graph_model = graphAB from rfl,
    show schedS1.reservations = [(("A", "B"), [(0, 60, 1)])] from rfl]
  rw [legEval2]

theorem foldEval76 :
    (pairs ["A", "B"]).foldl (scheduleEdge graphAB "GREEDY" 2 (0, 0, 0))
        ⟨[(("A", "B"), [(0, 60, 1)])], [], 0, 76⟩ =
      ⟨[(("A", "B"), [(0, 60, 1), (76, 136, 2)])],
        [⟨2, "A", "B", 76, 136, (0, 0, 0)⟩], 0, 136⟩ := by
  rw [show pairs ["A", "B"] = [("A", "B")] from rfl, List.foldl_cons, List.foldl_nil]
  rw [scheduleEdge_greedy]
  rw [graphAB_weight_AB, edgeKey_AB]
  simp only [Nat.cast_ofNat]
  rw [show resListOf [((("A", "B") : EdgeKey), [((0 : Int), (60 : Int), (1 : Int))])]
    ("A", "B") = [(0, 60, 1)] from by simp [resListOf]]
  rw [greedyEval76]
  simp [reserveIn, insertRes, edgeKey_AB]

theorem legEval76 :
    scheduleLeg graphAB "GREEDY" 2 (0, 0, 0)
        ⟨[(("A", "B"), [(0, 60, 1)])], [], 0, 76⟩ ("A", "B") =
      ⟨[(("A", "B"), [(0, 60, 1), (76, 136, 2)])],
        [⟨2, "A", "B", 76, 136, (0, 0, 0)⟩], 0, 141⟩ := by
  rw [scheduleLeg_run graphAB "GREEDY" 2 (0, 0, 0) ⟨[(("A", "B"), [(0, 60, 1)])], [], 0, 76⟩
    "A" "B" (by rw [pathAB_AB]; decide)]
  rw [pathAB_AB]
  simp only [foldEval76]
  norm_num

theorem schedAB_run76 :
    schedule_route schedS1 2 ["A", "B"] (0, 0, 0) 76 "GREEDY" =
      ([⟨2, "A", "B", 76, 136, (0, 0, 0)⟩], 0,
        { graph_model := graphAB,
          reservations := [(("A", "B"), [(0, 60, 1), (76, 136, 2)])] }) := by
  unfold schedule_route
  rw [show pairs ["A", "B"] = [("A", "B")] from rfl, List.foldl_cons, List.foldl_nil,
    show schedS1.graph_model = graphAB from rfl,
    show schedS1.reservations = [(("A", "B"), [(0, 60, 1)])] from rfl]
  rw [legEval76]

/-! ## C5: the concrete two-train scenario -/

/-- C5: on the concrete graph `A(0,0) — B(300,0)` (one track of weight
60), a fresh scheduler gives train 1 (route `[A, B]`, start 0, GREEDY)
exactly the event `(1, A, B, 0, 60)`; scheduling train 2 immediately
after (same route, start 0, GREEDY) yields exactly one event with
start 80 and end 140. -/
theorem C5_concrete_scenario :
    (schedule_route emptySchedAB 1 ["A", "B"] (0, 0, 0) 0 "GREEDY").1 =
      [⟨1, "A", "B", 0, 60, (0, 0, 0)⟩] ∧
    (schedule_route (schedule_route emptySchedAB 1 ["A", "B"] (0, 0, 0) 0 "GREEDY").2.2
        2 ["A", "B"] (0, 0, 0) 0 "GREEDY").1 =
      [⟨2, "A", "B", 80, 140, (0, 0, 0)⟩] := by
  rw [schedAB_run1]
  rw [show (([⟨1, "A", "B", 0, 60, (0, 0, 0)⟩], 0, schedS1) :
    List ScheduleEvent × Nat × Scheduler).2.2 = schedS1 from rfl]
  rw [schedAB_run2]
  exact ⟨rfl, rfl⟩

/-- C3 counterexample: with `[0, 60]` reserved for train 1, GREEDY
books train 2 at start 76 immediately, although the interval
`[76, 136]` does conflict with `(0, 60)` under margin 20
(`76 < 60 + 20`); a margin-20 check, as the claim states it, would
have forced the loop to advance past 76. -/
theorem C3_margin20_counterexample :
    (schedule_route (schedule_route emptySchedAB 1 ["A", "B"] (0, 0, 0) 0 "GREEDY").2.2
        2 ["A", "B"] (0, 0, 0) 76 "GREEDY").1 =
      [⟨2, "A", "B", 76, 136, (0, 0, 0)⟩] ∧
    resListOf (schedule_route emptySchedAB 1 ["A", "B"] (0, 0, 0) 0 "GREEDY").2.2.reservations
      ("A", "B") = [(0, 60, 1)] ∧
    conflictPred 76 136 0 60 20 = true := by
  rw [schedAB_run1]
  refine ⟨?_, by simp [schedS1, resListOf], by norm_num [conflictPred]⟩
  rw [show (([⟨1, "A", "B", 0, 60, (0, 0, 0)⟩], 0, schedS1) :
    List ScheduleEvent × Nat × Scheduler).2.2 = schedS1 from rfl]
  rw [schedAB_run76]

/-! ## C4: the CSP probe -/

/-- C4: in CSP mode each edge is probed at `curr_t, curr_t+10, …`,
`conflicts_avoided` is incremented once per conflicting probe, the
probe is abandoned silently (no event, no reservation, cursor
unchanged, call continues) once the attempt exceeds `curr_t + 5000`
after an advance, and the first conflict-free attempt `a` is reserved
as `[a, a + w]`, emitted, and sets `curr_t = a + w`. -/
theorem C4_csp_probe :
    (∀ (rs : List Reservation) (w c a : Int),
      (hasConflictList rs a (a + w) 15 = false → cspFind rs w c a = (some a, 0)) ∧
      (hasConflictList rs a (a + w) 15 = true → a + 10 - c > 5000 →
        cspFind rs w c a = (none, 1)) ∧
      (hasConflictList rs a (a + w) 15 = true → ¬ a + 10 - c > 5000 →
        cspFind rs w c a = ((cspFind rs w c (a + 10)).1, (cspFind rs w c (a + 10)).2 + 1)) ∧
      (∀ (x : Int) (n : Nat), cspFind rs w c a = (some x, n) →
        hasConflictList rs x (x + w) 15 = false ∧ x = a + 10 * (n : Int))) ∧
    (∀ (g : RailwayGraph) (tid : Int) (color : Color) (st : SchedState) (u v : String),
      scheduleEdge g "CSP" tid color st (u, v) =
        match cspFind (resListOf st.resv (getEdgeKey u v)) (weight g u v)
          st.curr_t st.curr_t with
        | (some a, n) =>
          { resv := reserveIn st.resv u v a (a + (weight g u v)) tid
            events := st.events ++ [⟨tid, u, v, a, a + (weight g u v), color⟩]
            conflicts := st.conflicts + n
            curr_t := a + (weight g u v) }
        | (none, n) => { st with conflicts := st.conflicts + n }) := by
  refine ⟨?_, ?_⟩
  · intro rs w c a
    exact ⟨fun h => cspFind_succ h, fun h1 h2 => cspFind_abort h1 h2,
      fun h1 h2 => cspFind_step h1 h2, fun x n hx => cspFind_some_spec rs w c a x n hx⟩
  · intro g tid color st u v
    rcases hc : cspFind (resListOf st.resv (getEdgeKey u v)) (weight g u v)
      st.curr_t st.curr_t with ⟨_ | a, n⟩
    · rw [scheduleEdge_csp_none g tid color st u v n hc]
    · rw [scheduleEdge_csp_some g tid color st u v a n hc]

theorem C4_csp_probe_witness :
    cspFind [] (60 : Int) 0 0 = (some 0, 0) ∧
    cspFind [((0 : Int), (9000 : Int), (1 : Int))] 60 0 6000 = (none, 1) ∧
    cspFind [((0 : Int), (60 : Int), (1 : Int))] 60 0 0 =
      ((cspFind [((0 : Int), (60 : Int), (1 : Int))] 60 0 (0 + 10)).1,
        (cspFind [((0 : Int), (60 : Int), (1 : Int))] 60 0 (0 + 10)).2 + 1) ∧
    (hasConflictList [] (0 : Int) ((0 : Int) + 60) 15 = false ∧
      (0 : Int) = 0 + 10 * (((0 : Nat) : Nat) : Int)) :=
  ⟨(C4_csp_probe.1 [] 60 0 0).1 (by simp [hasConflictList]),
    (C4_csp_probe.1 [(0, 9000, 1)] 60 0 6000).2.1
      (by simp [hasConflictList, conflictPred]) (by norm_num),
    (C4_csp_probe.1 [(0, 60, 1)] 60 0 0).2.2.1
      (by simp [hasConflictList, conflictPred]) (by norm_num),
    (C4_csp_probe.1 [] 60 0 0).2.2.2 0 0
      ((C4_csp_probe.1 [] 60 0 0).1 (by simp [hasConflictList]))⟩

theorem C8_invalid_leg_skipped_witness :
    scheduleLeg graphAB "GREEDY" 1 (0, 0, 0) ⟨[], [], 0, 0⟩ ("A", "C") = ⟨[], [], 0, 0⟩ ∧
    ([(("A", "B") : String × String)] ++ ("A", "C") :: []).foldl
        (scheduleLeg graphAB "GREEDY" 1 (0, 0, 0)) ⟨[], [], 0, 0⟩ =
      ([(("A", "B") : String × String)] ++ []).foldl
        (scheduleLeg graphAB "GREEDY" 1 (0, 0, 0)) ⟨[], [], 0, 0⟩ :=
  ⟨(C8_invalid_leg_skipped graphAB "GREEDY" 1 (0, 0, 0) "A" "C"
      (by rw [pathAB_AC]; decide)).1 ⟨[], [], 0, 0⟩,
    (C8_invalid_leg_skipped graphAB "GREEDY" 1 (0, 0, 0) "A" "C"
      (by rw [pathAB_AC]; decide)).2 [("A", "B")] [] ⟨[], [], 0, 0⟩⟩

/-! ## C9: GREEDY monotonicity -/

/-- The chaining invariant carried through a GREEDY call: the emitted
events are chained end-to-start, and the last event (if any) ends no
later than the cursor. -/
def GreedyInv (st : SchedState) : Prop :=
  st.events.Chain' (fun e1 e2 => e1.end_time ≤ e2.start_time) ∧
  ∀ e ∈ st.events.getLast?, e.end_time ≤ st.curr_t

theorem scheduleEdge_greedy_mono (g : RailwayGraph) (tid : Int) (color : Color)
    (st : SchedState) (uv : String × String) :
    st.curr_t ≤ (scheduleEdge g "GREEDY" tid color st uv).curr_t := by
  obtain ⟨u, v⟩ := uv
  rw [scheduleEdge_greedy]
  have h1 := greedyFind_ge (resListOf st.resv (getEdgeKey u v)) (weight g u v) st.curr_t
  have h2 : (0 : Int) ≤ (weight g u v : Int) := Int.natCast_nonneg _
  show st.curr_t ≤ _ + _
  omega

theorem scheduleEdge_greedy_inv (g : RailwayGraph) (tid : Int) (color : Color)
    (st : SchedState) (uv : String × String) (h : GreedyInv st) :
    GreedyInv (scheduleEdge g "GREEDY" tid color st uv) := by
  obtain ⟨u, v⟩ := uv
  rw [scheduleEdge_greedy]
  obtain ⟨hchain, hlast⟩ := h
  have hge := greedyFind_ge (resListOf st.resv (getEdgeKey u v)) (weight g u v) st.curr_t
  constructor
  · show (st.events ++ [_]).Chain' _
    rw [List.chain'_append]
    refine ⟨hchain, List.chain'_singleton _, ?_⟩
    intro x hx y hy
    simp only [List.head?_cons, Option.mem_def, Option.some.injEq] at hy
    subst hy
    have := hlast x hx
    show x.end_time ≤ (greedyFind _ _ _).1
    omega
  · intro e he
    have he2 : e ∈ (st.events ++ [(⟨tid, u, v,
      (greedyFind (resListOf st.resv (getEdgeKey u v)) (weight g u v) st.curr_t).1,
      (greedyFind (resListOf st.resv (getEdgeKey u v)) (weight g u v) st.curr_t).1 +
        (weight g u v), color⟩ : ScheduleEvent)]).getLast? := he
    rw [List.getLast?_concat] at he2
    simp only [Option.mem_def, Option.some.injEq] at he2
    subst he2
    exact le_refl _

theorem foldl_edges_greedy_mono (g : RailwayGraph) (tid : Int) (color : Color)
    (l : List (String × String)) :
    ∀ st : SchedState, st.curr_t ≤ (l.foldl (scheduleEdge g "GREEDY" tid color) st).curr_t := by
  induction l with
  | nil => intro st; exact le_refl _
  | cons uv t ih =>
    intro st
    rw [List.foldl_cons]
    exact le_trans (scheduleEdge_greedy_mono g tid color st uv)
      (ih (scheduleEdge g "GREEDY" tid color st uv))

theorem foldl_edges_greedy_inv (g : RailwayGraph) (tid : Int) (color : Color)
    (l : List (String × String)) :
    ∀ st : SchedState, GreedyInv st →
      GreedyInv (l.foldl (scheduleEdge g "GREEDY" tid color) st) := by
  induction l with
  | nil => intro st h; exact h
  | cons uv t ih =>
    intro st h
    rw [List.foldl_cons]
    exact ih _ (scheduleEdge_greedy_inv g tid color st uv h)

theorem scheduleLeg_greedy_mono (g : RailwayGraph) (tid : Int) (color : Color)
    (st : SchedState) (ab : String × String) :
    st.curr_t ≤ (scheduleLeg g "GREEDY" tid color st ab).curr_t := by
  obtain ⟨a, b⟩ := ab
  by_cases h : (get_path g a b).length < 2
  · rw [scheduleLeg_skip g "GREEDY" tid color st a b h]
  · rw [scheduleLeg_run g "GREEDY" tid color st a b h]
    have := foldl_edges_greedy_mono g tid color (pairs (get_path g a b)) st
    show st.curr_t ≤ _ + 5
    omega

theorem scheduleLeg_greedy_inv (g : RailwayGraph) (tid : Int) (color : Color)
    (st : SchedState) (ab : String × String) (h : GreedyInv st) :
    GreedyInv (scheduleLeg g "GREEDY" tid color st ab) := by
  obtain ⟨a, b⟩ := ab
  by_cases hp : (get_path g a b).length < 2
  · rw [scheduleLeg_skip g "GREEDY" tid color st a b hp]
    exact h
  · rw [scheduleLeg_run g "GREEDY" tid color st a b hp]
    obtain ⟨hchain, hlast⟩ := foldl_edges_greedy_inv g tid color (pairs (get_path g a b)) st h
    refine ⟨hchain, ?_⟩
    intro e he
    have := hlast e he
    show e.end_time ≤ _ + 5
    omega

theorem foldl_legs_greedy_inv (g : RailwayGraph) (tid : Int) (color : Color)
    (legs : List (String × String)) :
    ∀ st : SchedState, GreedyInv st →
      GreedyInv (legs.foldl (scheduleLeg g "GREEDY" tid color) st) := by
  induction legs with
  | nil => intro st h; exact h
  | cons ab t ih =>
    intro st h
    rw [List.foldl_cons]
    exact ih _ (scheduleLeg_greedy_inv g tid color st ab h)

/-- C9: within one `schedule_route` call in GREEDY mode the cursor
time never decreases — neither across a single edge booking nor across
a whole leg — and any two consecutively emitted events satisfy
`earlier.end_time ≤ later.start_time`. -/
theorem C9_greedy_monotonic :
    (∀ (g : RailwayGraph) (tid : Int) (color : Color) (st : SchedState)
      (uv : String × String),
      st.curr_t ≤ (scheduleEdge g "GREEDY" tid color st uv).curr_t) ∧
    (∀ (g : RailwayGraph) (tid : Int) (color : Color) (st : SchedState)
      (ab : String × String),
      st.curr_t ≤ (scheduleLeg g "GREEDY" tid color st ab).curr_t) ∧
    (∀ (s : Scheduler) (tid : Int) (stops : List String) (color : Color) (t0 : Int),
      (schedule_route s tid stops color t0 "GREEDY").1.Chain'
        (fun e1 e2 => e1.end_time ≤ e2.start_time)) := by
  refine ⟨scheduleEdge_greedy_mono, scheduleLeg_greedy_mono, ?_⟩
  intro s tid stops color t0
  have h := foldl_legs_greedy_inv s.graph_model tid color (pairs stops)
    ⟨s.reservations, [], 0, t0⟩ ⟨List.chain'_nil, by intro e he; cases he⟩
  exact h.1

/-! ## C1: the reservation table is never double-booked -/

/-- Two reservations do not conflict under the margin-15 rule (the
margin `schedule_route` uses), read as "r1 queried against stored
r2". -/
def NoConf (r1 r2 : Reservation) : Prop :=
  ¬ (r1.1 < r2.2.1 + 15 ∧ r1.2.1 + 15 > r2.1)

/-- Well-formedness of the reservation table: unique keys (a Python
dict) and pairwise non-conflicting reservations per key. -/
def TableOK (l : ResTable) : Prop :=
  (l.map Prod.fst).Nodup ∧ ∀ p ∈ l, p.2.Pairwise NoConf

theorem TableOK_nil : TableOK [] := by
  constructor
  · simp
  · intro p hp
    cases hp

theorem resListOf_cons_self (k : EdgeKey) (rs : List Reservation) (t : ResTable) :
    resListOf ((k, rs) :: t) k = rs := by
  simp [resListOf, List.lookup]

theorem resListOf_cons_ne {k0 k : EdgeKey} (h : ¬ k0 = k) (rs : List Reservation)
    (t : ResTable) : resListOf ((k0, rs) :: t) k = resListOf t k := by
  have hb : (k == k0) = false := by
    simp only [beq_eq_false_iff_ne, ne_eq]
    intro he
    exact h he.symm
  simp [resListOf, List.lookup, hb]

theorem hasConflictList_eq_false {rs : List Reservation} {a b m : Int}
    (h : hasConflictList rs a b m = false) :
    ∀ r ∈ rs, ¬ (a < r.2.1 + m ∧ b + m > r.1) := by
  intro r hr hcon
  have ht : hasConflictList rs a b m = true := by
    refine List.any_eq_true.mpr ⟨r, hr, ?_⟩
    simp only [conflictPred, Bool.and_eq_true, decide_eq_true_eq]
    exact ⟨hcon.1, hcon.2⟩
  rw [h] at ht
  cases ht

theorem insertRes_keys_mem {l : ResTable} {k : EdgeKey} (r : Reservation)
    (h : k ∈ l.map Prod.fst) : (insertRes l k r).map Prod.fst = l.map Prod.fst := by
  induction l with
  | nil => cases h
  | cons q t ih =>
    obtain ⟨k0, rs0⟩ := q
    by_cases hk : k0 = k
    · simp [insertRes, hk]
    · have hmem : k ∈ t.map Prod.fst := by
        rcases List.mem_cons.mp h with h1 | h1
        · exact absurd h1.symm hk
        · exact h1
      simp [insertRes, hk, ih hmem]

theorem insertRes_keys_not_mem {l : ResTable} {k : EdgeKey} (r : Reservation)
    (h : ¬ k ∈ l.map Prod.fst) :
    (insertRes l k r).map Prod.fst = l.map Prod.fst ++ [k] := by
  induction l with
  | nil => simp [insertRes]
  | cons q t ih =>
    obtain ⟨k0, rs0⟩ := q
    by_cases hk : k0 = k
    · exact absurd (by simp [hk]) h
    · have hmem : ¬ k ∈ t.map Prod.fst := fun hc => h (by simp [hc])
      simp [insertRes, hk, ih hmem]

theorem insertRes_TableOK (k : EdgeKey) (a b tid : Int) :
    ∀ l : ResTable, TableOK l → hasConflictList (resListOf l k) a b 15 = false →
      TableOK (insertRes l k (a, b, tid)) := by
  intro l
  induction l with
  | nil =>
    intro _ _
    constructor
    · simp [insertRes]
    · intro p hp
      simp only [insertRes, List.mem_singleton] at hp
      subst hp
      exact List.pairwise_singleton _ _
  | cons q t ih =>
    intro h hfree
    obtain ⟨k0, rs0⟩ := q
    obtain ⟨hnd, hpw⟩ := h
    rw [List.map_cons, List.nodup_cons] at hnd
    by_cases hk : k0 = k
    · subst hk
      rw [resListOf_cons_self] at hfree
      rw [show insertRes ((k0, rs0) :: t) k0 (a, b, tid) = (k0, rs0 ++ [(a, b, tid)]) :: t
        from by simp [insertRes]]
      constructor
      · rw [List.map_cons, List.nodup_cons]
        exact hnd
      · intro p hp
        rcases List.mem_cons.mp hp with rfl | hp
        · show (rs0 ++ [(a, b, tid)]).Pairwise NoConf
          rw [List.pairwise_append]
          refine ⟨hpw (k0, rs0) (List.mem_cons_self _ _), List.pairwise_singleton _ _, ?_⟩
          intro r hr r2 hr2
          rcases List.mem_singleton.mp hr2 with rfl
          have hnc := hasConflictList_eq_false hfree r hr
          intro hcon
          exact hnc ⟨hcon.2, hcon.1⟩
        · exact hpw p (List.mem_cons_of_mem _ hp)
    · rw [resListOf_cons_ne hk rs0 t] at hfree
      have ht : TableOK t :=
        ⟨hnd.2, fun p hp => hpw p (List.mem_cons_of_mem _ hp)⟩
      obtain ⟨ihnd, ihpw⟩ := ih ht hfree
      rw [show insertRes ((k0, rs0) :: t) k (a, b, tid) =
        (k0, rs0) :: insertRes t k (a, b, tid) from by simp [insertRes, hk]]
      constructor
      · rw [List.map_cons, List.nodup_cons]
        refine ⟨?_, ihnd⟩
        by_cases hmem : k ∈ t.map Prod.fst
        · rw [insertRes_keys_mem _ hmem]
          exact hnd.1
        · rw [insertRes_keys_not_mem _ hmem]
          simp only [List.mem_append, List.mem_singleton]
          rintro (hc | hc)
          · exact hnd.1 hc
          · exact hk hc
      · intro p hp
        rcases List.mem_cons.mp hp with rfl | hp
        · exact hpw (k0, rs0) (List.mem_cons_self _ _)
        · exact ihpw p hp

theorem reserveIn_TableOK {l : ResTable} {u v : String} {a b tid : Int}
    (h : TableOK l) (hfree : hasConflictList (resListOf l (getEdgeKey u v)) a b 15 = false) :
    TableOK (reserveIn l u v a b tid) :=
  insertRes_TableOK (getEdgeKey u v) a b tid l h hfree

theorem scheduleEdge_TableOK (g : RailwayGraph) (mode : String) (tid : Int) (color : Color)
    (st : SchedState) (uv : String × String) (h : TableOK st.resv) :
    TableOK (scheduleEdge g mode tid color st uv).resv := by
  obtain ⟨u, v⟩ := uv
  by_cases h1 : mode = "GREEDY"
  · subst h1
    rw [scheduleEdge_greedy]
    exact reserveIn_TableOK h
      (greedyFind_free (resListOf st.resv (getEdgeKey u v)) (weight g u v) st.curr_t)
  · by_cases h2 : mode = "CSP"
    · subst h2
      rcases hc : cspFind (resListOf st.resv (getEdgeKey u v)) (weight g u v)
        st.curr_t st.curr_t with ⟨o, n⟩
      rcases o with _ | a
      · rw [scheduleEdge_csp_none g tid color st u v n hc]
        exact h
      · rw [scheduleEdge_csp_some g tid color st u v a n hc]
        exact reserveIn_TableOK h
          (cspFind_some_spec (resListOf st.resv (getEdgeKey u v)) (weight g u v)
            st.curr_t st.curr_t a n hc).1
    · unfold scheduleEdge
      rw [if_neg h1, if_neg h2]
      exact h

theorem foldl_edges_TableOK (g : RailwayGraph) (mode : String) (tid : Int) (color : Color)
    (l : List (String × String)) :
    ∀ st : SchedState, TableOK st.resv →
      TableOK ((l.foldl (scheduleEdge g mode tid color) st).resv) := by
  induction l with
  | nil => intro st h; exact h
  | cons uv t ih =>
    intro st h
    rw [List.foldl_cons]
    exact ih _ (scheduleEdge_TableOK g mode tid color st uv h)

theorem scheduleLeg_TableOK (g : RailwayGraph) (mode : String) (tid : Int) (color : Color)
    (st : SchedState) (ab : String × String) (h : TableOK st.resv) :
    TableOK (scheduleLeg g mode tid color st ab).resv := by
  obtain ⟨a, b⟩ := ab
  by_cases hp : (get_path g a b).length < 2
  · rw [scheduleLeg_skip g mode tid color st a b hp]
    exact h
  · rw [scheduleLeg_run g mode tid color st a b hp]
    exact foldl_edges_TableOK g mode tid color (pairs (get_path g a b)) st h

theorem foldl_legs_TableOK (g : RailwayGraph) (mode : String) (tid : Int) (color : Color)
    (legs : List (String × String)) :
    ∀ st : SchedState, TableOK st.resv →
      TableOK ((legs.foldl (scheduleLeg g mode tid color) st).resv) := by
  induction legs with
  | nil => intro st h; exact h
  | cons ab t ih =>
    intro st h
    rw [List.foldl_cons]
    exact ih _ (scheduleLeg_TableOK g mode tid color st ab h)

theorem schedule_route_TableOK (s : Scheduler) (tid : Int) (stops : List String)
    (color : Color) (t0 : Int) (mode : String) (h : TableOK s.reservations) :
    TableOK (schedule_route s tid stops color t0 mode).2.2.reservations :=
  foldl_legs_TableOK s.graph_model mode tid color (pairs stops)
    ⟨s.reservations, [], 0, t0⟩ h

/-- One external call: `(train_id, stops, color, start_time, mode)`. -/
abbrev Call := Int × List String × Color × Int × String

/-- Run a sequence of `schedule_route` calls on a freshly constructed
scheduler over `g`. -/
def applyCalls (g : RailwayGraph) (calls : List Call) : Scheduler :=
  calls.foldl
    (fun s c => (schedule_route s c.1 c.2.1 c.2.2.1 c.2.2.2.1 c.2.2.2.2).2.2)
    (freshScheduler g)

theorem applyCalls_TableOK (g : RailwayGraph) (calls : List Call) :
    TableOK (applyCalls g calls).reservations := by
  suffices hgen : ∀ s : Scheduler, TableOK s.reservations →
      TableOK ((calls.foldl
        (fun s c => (schedule_route s c.1 c.2.1 c.2.2.1 c.2.2.2.1 c.2.2.2.2).2.2)
        s).reservations) by
    exact hgen (freshScheduler g) TableOK_nil
  induction calls with
  | nil => intro s h; exact h
  | cons c t ih =>
    intro s h
    rw [List.foldl_cons]
    exact ih _ (schedule_route_TableOK s c.1 c.2.1 c.2.2.1 c.2.2.2.1 c.2.2.2.2 h)

/-- C1: after any sequence of `schedule_route` calls (GREEDY or CSP or
any other mode string, any trains, stops and start times) on a freshly
constructed scheduler, no edge key's reservation list contains two
distinct reservations satisfying the conflict predicate
`s1 < e2 + m ∧ e1 + m > s2` with the scheduler's margin `m = 15`, in
either order. -/
theorem C1_no_double_booking :
    ∀ (g : RailwayGraph) (calls : List Call) (k : EdgeKey) (rs : List Reservation),
      (k, rs) ∈ (applyCalls g calls).reservations →
      rs.Pairwise (fun r1 r2 =>
        ¬ (r1.1 < r2.2.1 + 15 ∧ r1.2.1 + 15 > r2.1) ∧
        ¬ (r2.1 < r1.2.1 + 15 ∧ r2.2.1 + 15 > r1.1)) := by
  intro g calls k rs hmem
  have h := (applyCalls_TableOK g calls).2 (k, rs) hmem
  exact h.imp (fun hnc => ⟨hnc, fun hc => hnc ⟨hc.2, hc.1⟩⟩)

theorem C1_no_double_booking_witness :
    ([((0 : Int), (60 : Int), (1 : Int))] : List Reservation).Pairwise (fun r1 r2 =>
      ¬ (r1.1 < r2.2.1 + 15 ∧ r1.2.1 + 15 > r2.1) ∧
      ¬ (r2.1 < r1.2.1 + 15 ∧ r2.2.1 + 15 > r1.1)) :=
  C1_no_double_booking graphAB [(1, ["A", "B"], (0, 0, 0), 0, "GREEDY")] ("A", "B")
    [(0, 60, 1)]
    (by
      show (("A", "B"), [((0 : Int), (60 : Int), (1 : Int))]) ∈
        ((schedule_route (freshScheduler graphAB) 1 ["A", "B"] (0, 0, 0) 0
          "GREEDY").2.2).reservations
      rw [show freshScheduler graphAB = emptySchedAB from rfl, schedAB_run1]
      simp [schedS1])

end RailSim
